import Mathlib

set_option autoImplicit false

/-!
A shallow embedding of the `go.llib.dev` redirect-page generators.

The repository holds four small Go programs that read a configuration file
describing Go packages and render one `index.html` redirect page (with a
`go-import` meta tag) per package:

* `VariantA` — `cmd/generate-go-redirect/main.go`: semicolon-delimited lines,
  records of type `Import` (Name, Import definition string).
* `VariantB` — the plain-line generator (`src/unnamed/part_000`): every
  scanned line becomes one project string, verbatim.
* `VariantC` — the whitespace-delimited generator (second file of
  `src/unnamed/part_001`): lines split by the regexp `\s+`, records of type
  `Project` (PackageName, RepoName).
* `VariantD` — the richer JSON generator (first file of
  `src/unnamed/part_001`): a JSON array of records with full VCS metadata,
  nested submodules, domain filtering and a CNAME file.

Pure string functions are translated directly; the filesystem writer is
embedded as a function producing the ordered list of filesystem events
(`FSEvent`) a run performs, together with the first error.  External
collaborators (the embedded HTML template, `net/url.Parse`, JSON decoding,
file reading, environment lookup) are parameters of the embedding.
-/

namespace GoRedirect

/-- The code points of Go's `unicode.IsSpace` (the White_Space property):
these are the runes `strings.TrimSpace` removes at either end. -/
def goSpaceRunes : List Nat :=
  [0x09, 0x0A, 0x0B, 0x0C, 0x0D, 0x20, 0x85, 0xA0, 0x1680,
   0x2000, 0x2001, 0x2002, 0x2003, 0x2004, 0x2005, 0x2006, 0x2007,
   0x2008, 0x2009, 0x200A, 0x2028, 0x2029, 0x202F, 0x205F, 0x3000]

/-- Go's `unicode.IsSpace`. -/
def goIsSpace (c : Char) : Bool := goSpaceRunes.contains c.toNat

/-- The code points of the regexp class `\s` in Go's `regexp` package:
tab, newline, form feed, carriage return, space (vertical tab excluded). -/
def goRegexpSpaceRunes : List Nat := [0x09, 0x0A, 0x0C, 0x0D, 0x20]

/-- Membership in the Go regexp class `\s`, the separator class of the
`spaceRGX = regexp.MustCompile` of the whitespace-delimited variant. -/
def goRegexpSpace (c : Char) : Bool := goRegexpSpaceRunes.contains c.toNat

/-- Remove the trailing characters satisfying `p` (the right half of
`strings.TrimSpace`). -/
def dropTrailing (p : Char → Bool) : List Char → List Char
  | [] => []
  | c :: rest =>
    if (dropTrailing p rest).isEmpty && p c then [] else c :: dropTrailing p rest

/-- `strings.TrimSpace` on a character list: drop leading and trailing
`unicode.IsSpace` runes. -/
def goTrimSpaceL (l : List Char) : List Char :=
  dropTrailing goIsSpace (l.dropWhile goIsSpace)

/-- Go's `strings.TrimSpace`. -/
def goTrimSpace (s : String) : String := ⟨goTrimSpaceL s.data⟩

/-- `strings.Split` around a one-character separator: the substrings between
occurrences of `sep`, empty substrings kept (so the result is never empty). -/
def splitOnChar (sep : Char) : List Char → List (List Char)
  | [] => [[]]
  | c :: rest =>
    if c = sep then [] :: splitOnChar sep rest
    else
      match splitOnChar sep rest with
      | [] => [[c]]
      | t :: ts => (c :: t) :: ts

/-- `strings.Split(s, ";")` of `VariantA.getImports`. -/
def goSplitSemi (s : String) : List String :=
  (splitOnChar ';' s.data).map fun t => ⟨t⟩

/-- The worker behind `spaceRGX.Split(s, -1)`: split around maximal runs of
`\s` characters.  `acc` is the token being built, `inSep` records whether the
previous character belonged to a separator run (so one run yields one split). -/
def wsSplitAux : List Char → Bool → List Char → List (List Char)
  | [], _, acc => [acc]
  | c :: rest, inSep, acc =>
    if goRegexpSpace c then
      if inSep then wsSplitAux rest true acc
      else acc :: wsSplitAux rest true []
    else wsSplitAux rest false (acc ++ [c])

/-- `spaceRGX.Split(s, -1)` with `spaceRGX = \s+`, as the whitespace-delimited
variant calls it. -/
def spaceRGXSplit (s : String) : List String :=
  (wsSplitAux s.data false []).map fun t => ⟨t⟩

/-- Does `l` start with `q`? (worker for the substring test). -/
def hasPre : List Char → List Char → Bool
  | _, [] => true
  | [], _ :: _ => false
  | a :: l, b :: q => a == b && hasPre l q

/-- Does `l` contain `q` as a contiguous run? (worker for `strings.Contains`). -/
def hasSub (q : List Char) : List Char → Bool
  | [] => hasPre [] q
  | l@(_ :: rest) => hasPre l q || hasSub q rest

/-- Go's `strings.Contains(s, sub)`. -/
def goContains (s sub : String) : Bool := hasSub sub.data s.data

/-- Go's `strings.TrimPrefix(s, pfx)`: drop `pfx` when `s` starts with it,
return `s` unchanged otherwise. -/
def goTrimPfx (s pfx : String) : String :=
  if hasPre s.data pfx.data then ⟨s.data.drop pfx.data.length⟩ else s

/-- The local closure `get` shared by `VariantA.getImports` and
`VariantC.getProjects`: the `i`-th field when it exists, `""` otherwise. -/
def strGet (e : List String) (i : Nat) : String :=
  match e.get? i with
  | some v => v
  | none => ""

/-- `path/filepath.Join` on two segments.  The embedding joins the non-empty
segments with `/`; `filepath.Clean` normalisation is not modelled (no claim
depends on it, all paths the programs build are already clean). -/
def filepathJoin (a b : String) : String :=
  if a = "" then b else if b = "" then a else a ++ "/" ++ b

/-- Go's `path.Split`: the pair (everything up to and including the final
slash, everything after it). -/
def goPathSplit (p : String) : String × String :=
  let r := p.data.reverse
  let file := (r.takeWhile fun c => !(c == '/')).reverse
  let dir := (r.dropWhile fun c => !(c == '/')).reverse
  (⟨dir⟩, ⟨file⟩)

/-- One step the filesystem writer performs: `os.MkdirAll` (through
`ensureDirectory`) or `os.WriteFile`, with the permission bits passed. -/
inductive FSEvent where
  | mkdirAll (path : String) (perm : Nat)
  | writeFile (path : String) (content : String) (perm : Nat)
  deriving DecidableEq, Repr

/-- `s` carries no leading and no trailing `unicode.IsSpace` rune. -/
def noEdgeSpace (s : String) : Bool :=
  (match s.data.head? with
   | none => true
   | some c => !goIsSpace c)
  &&
  (match s.data.getLast? with
   | none => true
   | some c => !goIsSpace c)

/-- `s` contains no character of the regexp class `\s` at all. -/
def noWSChar (s : String) : Bool := s.data.all fun c => !goRegexpSpace c

namespace VariantA

/-- `type Import struct { Name, Import string }` of
`cmd/generate-go-redirect/main.go`. -/
structure Import where
  Name : String
  Import : String
  deriving DecidableEq, Repr

/-- The scan loop of `getImports`: trim each line, skip it when blank, split
on `;`, trim each field, refuse a line of zero or more than two fields, and
append the record `{Name: parts[0], Import: parts[1]}` (missing fields `""`). -/
def getImportsLoop : List String → List Import → Except String (List Import)
  | [], acc => .ok acc
  | line :: rest, acc =>
    let raw := goTrimSpace line
    if raw = "" then getImportsLoop rest acc
    else
      let parts := (goSplitSemi raw).map goTrimSpace
      if parts.length = 0 ∨ 2 < parts.length then
        .error ("project value is not interpretable: " ++ raw)
      else
        getImportsLoop rest
          (acc ++ [{ Name := strGet parts 0, Import := strGet parts 1 }])

/-- `getImports` of `cmd/generate-go-redirect/main.go`, given the scanned
lines of the imports file. -/
def getImports (lines : List String) : Except String (List Import) :=
  getImportsLoop lines []

/-- `getImports` with its environment lookup and file open: `envPath` is the
value of `IMPORTS_FILE_PATH` when set, `readLines` the scanner over a named
file (errors model `os.Open` failures). -/
def getImportsFull (envPath : Option String)
    (readLines : String → Except String (List String)) :
    Except String (List Import) :=
  match envPath with
  | none => .error "IMPORTS_FILE_PATH environment variable is not set"
  | some p =>
    match readLines p with
    | .error e => .error ("failed to open imports file: " ++ e)
    | .ok lines => getImports lines

/-- `type RedirectTemplateData struct { PackageName, ImportDef string }`. -/
structure RedirectTemplateData where
  PackageName : String
  ImportDef : String
  deriving DecidableEq, Repr

/-- The per-project loop of `generateProjectRedirects`: render the template
into a buffer, make the project directory, write `index.html`.  `render`
stands for `tmpl.Execute`; an error aborts with the events done so far. -/
def redirectsLoop (outDirPath : String)
    (render : RedirectTemplateData → Except String String) :
    List Import → List FSEvent → List FSEvent × Option String
  | [], acc => (acc, none)
  | project :: rest, acc =>
    let dirPath := filepathJoin outDirPath project.Name
    let outPath := filepathJoin dirPath "index.html"
    match render { PackageName := project.Name, ImportDef := project.Import } with
    | .error e => (acc, some ("redirect template execution failed: " ++ e))
    | .ok buf =>
      redirectsLoop outDirPath render rest
        (acc ++ [.mkdirAll dirPath 0o755, .writeFile outPath buf 0o644])

/-- `generateProjectRedirects` of `cmd/generate-go-redirect/main.go`:
`outDirEnv` is `WEB_DIR_PATH` when set, `tmpl` the parsed embedded template
(`none` models a template parse failure). -/
def generateProjectRedirects (outDirEnv : Option String)
    (tmpl : Option (RedirectTemplateData → Except String String))
    (projects : List Import) : List FSEvent × Option String :=
  match outDirEnv with
  | none => ([], some "WEB_DIR_PATH env variable not set")
  | some outDirPath =>
    match tmpl with
    | none => ([], some "getRedirectTemplate failed")
    | some render => redirectsLoop outDirPath render projects []

/-- `main` of `cmd/generate-go-redirect/main.go`: read the imports, then
generate the redirect pages; either error aborts the run. -/
def mainRun (importsEnv outDirEnv : Option String)
    (readLines : String → Except String (List String))
    (tmpl : Option (RedirectTemplateData → Except String String)) :
    List FSEvent × Option String :=
  match getImportsFull importsEnv readLines with
  | .error e => ([], some e)
  | .ok projects => generateProjectRedirects outDirEnv tmpl projects

end VariantA

namespace VariantB

/-- The scan loop of `getProjects` in the plain-line generator
(`src/unnamed/part_000`): every scanned line is appended verbatim. -/
def getProjectsLoop : List String → List String → List String
  | [], acc => acc
  | line :: rest, acc => getProjectsLoop rest (acc ++ [line])

/-- `getProjects` of the plain-line generator, given the scanned lines:
no trimming, no blank-line skipping, no field splitting. -/
def getProjects (lines : List String) : List String :=
  getProjectsLoop lines []

end VariantB

namespace VariantC

/-- `type Project struct { PackageName, RepoName string }` of the
whitespace-delimited generator. -/
structure Project where
  PackageName : String
  RepoName : String
  deriving DecidableEq, Repr

/-- `Project.getRepoName`: the repository name falls back to the package
name when unset. -/
def Project.getRepoName (p : Project) : String :=
  if p.RepoName = "" then p.PackageName else p.RepoName

/-- The scan loop of `getProjects` in the whitespace-delimited generator:
trim each line, skip it when blank, split on runs of `\s`, refuse a line of
zero or more than two fields, append `{PackageName: parts[0], RepoName:
parts[1]}` (missing fields `""`).  The fields are not trimmed again. -/
def getProjectsLoop : List String → List Project → Except String (List Project)
  | [], acc => .ok acc
  | line :: rest, acc =>
    let raw := goTrimSpace line
    if raw = "" then getProjectsLoop rest acc
    else
      let parts := spaceRGXSplit raw
      if parts.length = 0 ∨ 2 < parts.length then
        .error ("project value is not interpretable: " ++ raw)
      else
        getProjectsLoop rest
          (acc ++ [{ PackageName := strGet parts 0, RepoName := strGet parts 1 }])

/-- `getProjects` of the whitespace-delimited generator, given the scanned
lines of the projects file. -/
def getProjects (lines : List String) : Except String (List Project) :=
  getProjectsLoop lines []

end VariantC

namespace VariantD

/-- A parsed `net/url.URL`, abstracted to the two observations the program
makes of it: `.Host` and `.String()` (the field `Str`). -/
structure GoURL where
  Host : String
  Str : String
  deriving DecidableEq, Repr

/-- The `JSONDTO` of `getMetas`: one object of the JSON array, absent fields
decoded as `""` (or the empty list for `submodules`). -/
structure JSONDTO where
  VCS : String
  ImportPrefix : String
  RootRepo : String
  HomepageURL : String
  DirectoryPattern : String
  FilePattern : String
  Submodules : List String
  deriving DecidableEq, Repr

/-- `type MetaImportVCS struct { Name string; RepoRoot *url.URL }`. -/
structure MetaImportVCS where
  Name : String
  RepoRoot : GoURL
  deriving DecidableEq, Repr

/-- `type MetaImport struct { Prefix string; VCS MetaImportVCS }`. -/
structure MetaImport where
  Prefix : String
  VCS : MetaImportVCS
  deriving DecidableEq, Repr

/-- `type MetaNestedModule struct { Path string }`. -/
structure MetaNestedModule where
  Path : String
  deriving DecidableEq, Repr

/-- `type MetaSource struct { HomepageURL, DirectoryPattern, FilePattern string }`. -/
structure MetaSource where
  HomepageURL : String
  DirectoryPattern : String
  FilePattern : String
  deriving DecidableEq, Repr

/-- `type Meta struct { Import MetaImport; Source MetaSource; Nested []MetaNestedModule }`. -/
structure Meta where
  Import : MetaImport
  Source : MetaSource
  Nested : List MetaNestedModule
  deriving DecidableEq, Repr

/-- `zerokit.IsZero` on a string: is it the zero value `""`. -/
def zerokitIsZero (s : String) : Bool := s == ""

/-- The body of the `getMetas` loop after `url.Parse(dto.RootRepo)`
succeeded with `vcsRepoRoot`: build the `MetaImport`, copy the source
fields, default the homepage to the repo root's string, and, when the repo
root's host contains "github.com", default the directory pattern to
`<root>/tree/master{/dir}` and the file pattern to
`<directoryPattern>/{file}#L{line}`. -/
def buildMeta (dto : JSONDTO) (vcsRepoRoot : GoURL) : Meta :=
  let imp : MetaImport :=
    { Prefix := dto.ImportPrefix
      VCS := { Name := dto.VCS, RepoRoot := vcsRepoRoot } }
  let src0 : MetaSource :=
    { HomepageURL := dto.HomepageURL
      DirectoryPattern := dto.DirectoryPattern
      FilePattern := dto.FilePattern }
  let src1 :=
    if src0.HomepageURL = "" then
      { src0 with HomepageURL := imp.VCS.RepoRoot.Str }
    else src0
  let src2 :=
    if goContains imp.VCS.RepoRoot.Host "github.com" then
      let srcA :=
        if zerokitIsZero src1.DirectoryPattern then
          { src1 with
              DirectoryPattern := imp.VCS.RepoRoot.Str ++ "/tree/master\x7b/dir\x7d" }
        else src1
      if zerokitIsZero srcA.FilePattern then
        { srcA with FilePattern := srcA.DirectoryPattern ++ "/\x7bfile\x7d#L\x7bline\x7d" }
      else srcA
    else src1
  { Import := imp
    Source := src2
    Nested := dto.Submodules.map fun modPath => { Path := modPath } }

/-- The `getMetas` loop over the decoded DTOs: parse each repo root URL
(`parseURL` stands for `url.Parse`), abort on the first failure, and collect
`buildMeta` of each record in order. -/
def getMetasLoop (parseURL : String → Except String GoURL) :
    List JSONDTO → List Meta → Except String (List Meta)
  | [], acc => .ok acc
  | dto :: rest, acc =>
    match parseURL dto.RootRepo with
    | .error e => .error ("failed to parse vcs repo root: " ++ e)
    | .ok vcsRepoRoot => getMetasLoop parseURL rest (acc ++ [buildMeta dto vcsRepoRoot])

/-- `getMetas` of the richer JSON generator: `envPath` is
`IMPORTS_FILE_PATH` when set, `readAll` the file read, `parseJSON` the
`json.Unmarshal` of the data into the DTO array. -/
def getMetas (envPath : Option String)
    (readAll : String → Except String String)
    (parseJSON : String → Except String (List JSONDTO))
    (parseURL : String → Except String GoURL) :
    Except String (List Meta) :=
  match envPath with
  | none => .error "IMPORTS_FILE_PATH environment variable is not set"
  | some p =>
    match readAll p with
    | .error e => .error ("failed to open imports file: " ++ e)
    | .ok data =>
      match parseJSON data with
      | .error e => .error e
      | .ok dtos => getMetasLoop parseURL dtos []

/-- `impPath`: the import path with `domain + "/"` stripped from the front. -/
def impPathOf (domain : String) (meta : Meta) : String :=
  goTrimPfx meta.Import.Prefix (domain ++ "/")

/-- `dirPath = filepath.Join(outDirPath, impPath)`. -/
def dirPathOf (domain outDirPath : String) (meta : Meta) : String :=
  filepathJoin outDirPath (impPathOf domain meta)

/-- `outPath = filepath.Join(dirPath, "index.html")`. -/
def outPathOf (domain outDirPath : String) (meta : Meta) : String :=
  filepathJoin (dirPathOf domain outDirPath meta) "index.html"

/-- `modDirPath = filepath.Join(outDirPath, impPath, filepath.Join(path.Split(mod.Path)))`. -/
def modDirPathOf (domain outDirPath : String) (meta : Meta)
    (mod : MetaNestedModule) : String :=
  filepathJoin (filepathJoin outDirPath (impPathOf domain meta))
    (filepathJoin (goPathSplit mod.Path).1 (goPathSplit mod.Path).2)

/-- `modOutPath = filepath.Join(modDirPath, "index.html")`. -/
def modOutPathOf (domain outDirPath : String) (meta : Meta)
    (mod : MetaNestedModule) : String :=
  filepathJoin (modDirPathOf domain outDirPath meta mod) "index.html"

/-- The body of the redirect loop for one record that passed the domain
filter: execute the template into `buf`, then make the record's directory
and write its `index.html`, then for every nested module make its directory
and write the same `buf` as its `index.html`. -/
def processOne (domain outDirPath : String)
    (render : Meta → Except String String) (meta : Meta) :
    Except String (List FSEvent) :=
  match render meta with
  | .error e => .error ("redirect template execution failed: " ++ e)
  | .ok buf =>
    .ok ([.mkdirAll (dirPathOf domain outDirPath meta) 0o755,
          .writeFile (outPathOf domain outDirPath meta) buf 0o644]
      ++ (meta.Nested.map fun mod =>
            [FSEvent.mkdirAll (modDirPathOf domain outDirPath meta mod) 0o755,
             FSEvent.writeFile (modOutPathOf domain outDirPath meta mod) buf 0o644]).flatten)

/-- The loop of `generateProjectRedirects` over the metas: a record whose
prefix does not contain the domain is skipped with `continue`; any
other is processed by `processOne`, an error aborting with the events done
so far. -/
def redirectsLoop (domain outDirPath : String)
    (render : Meta → Except String String) :
    List Meta → List FSEvent → List FSEvent × Option String
  | [], acc => (acc, none)
  | meta :: rest, acc =>
    if goContains meta.Import.Prefix domain then
      match processOne domain outDirPath render meta with
      | .error e => (acc, some e)
      | .ok evs => redirectsLoop domain outDirPath render rest (acc ++ evs)
    else redirectsLoop domain outDirPath render rest acc

/-- `generateProjectRedirects` of the richer JSON generator: look up
`DOMAIN` and `WEB_DIR_PATH`, parse the template, write the `CNAME` file
holding the domain at the output root, then run the loop. -/
def generateProjectRedirects (domainEnv outDirEnv : Option String)
    (tmpl : Option (Meta → Except String String)) (metas : List Meta) :
    List FSEvent × Option String :=
  match domainEnv with
  | none => ([], some "missing DOMAIN env variable")
  | some domain =>
    match outDirEnv with
    | none => ([], some "WEB_DIR_PATH env variable not set")
    | some outDirPath =>
      match tmpl with
      | none => ([], some "getRedirectTemplate failed")
      | some render =>
        let r := redirectsLoop domain outDirPath render metas []
        (.writeFile (filepathJoin outDirPath "CNAME") domain 0o666 :: r.1, r.2)

/-- `Main` of the richer JSON generator: read the metas, then generate the
redirects, wrapping either error. -/
def mainRun (importsEnv domainEnv outDirEnv : Option String)
    (readAll : String → Except String String)
    (parseJSON : String → Except String (List JSONDTO))
    (parseURL : String → Except String GoURL)
    (tmpl : Option (Meta → Except String String)) :
    List FSEvent × Option String :=
  match getMetas importsEnv readAll parseJSON parseURL with
  | .error e => ([], some ("get import meta data failed: " ++ e))
  | .ok metas =>
    let r := generateProjectRedirects domainEnv outDirEnv tmpl metas
    (r.1, r.2.map fun e => "generate project redirects have failed: " ++ e)

end VariantD

/-! ## Helper lemmas about the string workers -/

theorem dropWhile_head?_not {p : Char → Bool} {l : List Char} {c : Char}
    (h : (l.dropWhile p).head? = some c) : p c = false := by
  induction l with
  | nil => simp at h
  | cons a t ih =>
    by_cases hp : p a = true
    · rw [List.dropWhile_cons, if_pos hp] at h
      exact ih h
    · rw [List.dropWhile_cons, if_neg hp] at h
      simp at h
      subst h
      simpa using hp

theorem dropTrailing_head? {p : Char → Bool} {l : List Char} {c : Char}
    (h : (dropTrailing p l).head? = some c) : l.head? = some c := by
  cases l with
  | nil => simp [dropTrailing] at h
  | cons a t =>
    rw [dropTrailing] at h
    by_cases hc : (dropTrailing p t).isEmpty && p a
    · rw [if_pos hc] at h
      simp at h
    · rw [if_neg hc] at h
      simp at h ⊢
      exact h

theorem dropTrailing_getLast?_not {p : Char → Bool} {l : List Char} {c : Char}
    (h : (dropTrailing p l).getLast? = some c) : p c = false := by
  induction l with
  | nil => simp [dropTrailing] at h
  | cons a t ih =>
    rw [dropTrailing] at h
    by_cases hc : (dropTrailing p t).isEmpty && p a
    · rw [if_pos hc] at h
      simp at h
    · rw [if_neg hc] at h
      rcases he : dropTrailing p t with _ | ⟨b, u⟩
      · rw [he] at h
        simp at h
        subst h
        rw [he] at hc
        simpa using hc
      · rw [he, List.getLast?_cons_cons] at h
        apply ih
        rw [he]
        exact h

theorem goTrimSpace_head?_not {s : String} {c : Char}
    (h : (goTrimSpace s).data.head? = some c) : goIsSpace c = false := by
  have h' : (dropTrailing goIsSpace (s.data.dropWhile goIsSpace)).head? = some c := h
  exact dropWhile_head?_not (dropTrailing_head? h')

theorem goTrimSpace_getLast?_not {s : String} {c : Char}
    (h : (goTrimSpace s).data.getLast? = some c) : goIsSpace c = false := by
  have h' : (dropTrailing goIsSpace (s.data.dropWhile goIsSpace)).getLast? = some c := h
  exact dropTrailing_getLast?_not h'

theorem noEdgeSpace_goTrimSpace (s : String) : noEdgeSpace (goTrimSpace s) = true := by
  rw [noEdgeSpace]
  rcases hh : (goTrimSpace s).data.head? with _ | c <;>
    rcases hl : (goTrimSpace s).data.getLast? with _ | d
  · rfl
  · simp [goTrimSpace_getLast?_not hl]
  · simp [goTrimSpace_head?_not hh]
  · simp [goTrimSpace_head?_not hh, goTrimSpace_getLast?_not hl]

theorem goRegexpSpace_isSpace {c : Char} (h : goRegexpSpace c = true) :
    goIsSpace c = true := by
  simp [goRegexpSpace, goRegexpSpaceRunes] at h
  rcases h with h | h | h | h | h <;> simp [goIsSpace, goSpaceRunes, h]

theorem goRegexpSpace_of_not_isSpace {c : Char} (h : goIsSpace c = false) :
    goRegexpSpace c = false := by
  cases hr : goRegexpSpace c with
  | false => rfl
  | true => rw [goRegexpSpace_isSpace hr] at h; cases h

theorem strGet_prop {P : String → Prop} (hE : P "") {e : List String}
    (h : ∀ x ∈ e, P x) (i : Nat) : P (strGet e i) := by
  unfold strGet
  rcases hg : e.get? i with _ | v
  · exact hE
  · exact h v (List.get?_mem hg)

theorem wsSplitAux_all :
    ∀ (l : List Char) (inSep : Bool) (acc : List Char),
      (∀ c ∈ acc, goRegexpSpace c = false) →
      ∀ t ∈ wsSplitAux l inSep acc, ∀ c ∈ t, goRegexpSpace c = false := by
  intro l
  induction l with
  | nil =>
    intro inSep acc hacc t ht c hc
    rw [wsSplitAux] at ht
    simp at ht
    subst ht
    exact hacc c hc
  | cons a rest ih =>
    intro inSep acc hacc t ht c hc
    rw [wsSplitAux] at ht
    by_cases ha : goRegexpSpace a = true
    · rw [if_pos ha] at ht
      cases inSep with
      | true =>
        rw [if_pos rfl] at ht
        exact ih true acc hacc t ht c hc
      | false =>
        rw [if_neg (by simp)] at ht
        rcases List.mem_cons.mp ht with rfl | ht
        · exact hacc c hc
        · exact ih true [] (by simp) t ht c hc
    · rw [if_neg ha] at ht
      refine ih false (acc ++ [a]) ?_ t ht c hc
      intro d hd
      rcases List.mem_append.mp hd with hd | hd
      · exact hacc d hd
      · simp at hd
        subst hd
        simpa using ha

theorem wsSplitAux_first :
    ∀ (l : List Char) (inSep : Bool) (acc : List Char),
      ∃ t ts, wsSplitAux l inSep acc = (acc ++ t) :: ts := by
  intro l
  induction l with
  | nil =>
    intro inSep acc
    exact ⟨[], [], by rw [wsSplitAux]; simp⟩
  | cons a rest ih =>
    intro inSep acc
    rw [wsSplitAux]
    by_cases ha : goRegexpSpace a = true
    · rw [if_pos ha]
      cases inSep with
      | true =>
        rw [if_pos rfl]
        exact ih true acc
      | false =>
        rw [if_neg (by simp)]
        exact ⟨[], wsSplitAux rest true [], by simp⟩
    · rw [if_neg ha]
      obtain ⟨t, ts, h⟩ := ih false (acc ++ [a])
      exact ⟨[a] ++ t, ts, by rw [h]; simp⟩

theorem string_mk_ne_empty (c : Char) (t : List Char) : (⟨c :: t⟩ : String) ≠ "" := by
  intro he
  have : (⟨c :: t⟩ : String).data = ("" : String).data := by rw [he]
  simp at this

/-- The first field produced by the `\s+` split of a nonempty trimmed line is
a nonempty run of non-`\s` characters. -/
theorem spaceRGXSplit_first_ne {s : String} (hs : goTrimSpace s ≠ "") :
    ∃ (c : Char) (t : List Char) (ts : List String),
      spaceRGXSplit (goTrimSpace s) = (⟨c :: t⟩ : String) :: ts ∧
      goRegexpSpace c = false := by
  rcases hd : (goTrimSpace s).data with _ | ⟨c, cs⟩
  · exfalso
    apply hs
    have : (goTrimSpace s).data = ("" : String).data := by rw [hd]
    exact String.ext this
  · have hc : goIsSpace c = false := by
      apply goTrimSpace_head?_not (s := s)
      rw [hd]
      rfl
    have hcr : goRegexpSpace c = false := goRegexpSpace_of_not_isSpace hc
    obtain ⟨t, ts, hrec⟩ := wsSplitAux_first cs false [c]
    refine ⟨c, t, (ts.map fun u => (⟨u⟩ : String)), ?_, hcr⟩
    rw [spaceRGXSplit, hd, wsSplitAux, if_neg (by simp [hcr])]
    simp only [List.nil_append]
    rw [hrec]
    simp

/-! ## Helper lemmas about the parser loops -/

theorem getImportsLoop_error :
    ∀ (lines : List String) (acc : List VariantA.Import) (l : String),
      l ∈ lines → 2 < (goSplitSemi (goTrimSpace l)).length →
      ∃ msg, VariantA.getImportsLoop lines acc = .error msg := by
  intro lines
  induction lines with
  | nil =>
    intro acc l hl
    cases hl
  | cons l0 rest ih =>
    intro acc l hl hsplit
    rcases List.mem_cons.mp hl with rfl | hl
    · by_cases hb : goTrimSpace l = ""
      · rw [hb] at hsplit
        exact absurd hsplit (by decide)
      · rw [VariantA.getImportsLoop, if_neg hb,
          if_pos (Or.inr (by simpa using hsplit))]
        exact ⟨_, rfl⟩
    · rw [VariantA.getImportsLoop]
      by_cases hb : goTrimSpace l0 = ""
      · rw [if_pos hb]
        exact ih acc l hl hsplit
      · rw [if_neg hb]
        by_cases hn : ((goSplitSemi (goTrimSpace l0)).map goTrimSpace).length = 0 ∨
            2 < ((goSplitSemi (goTrimSpace l0)).map goTrimSpace).length
        · rw [if_pos hn]
          exact ⟨_, rfl⟩
        · rw [if_neg hn]
          exact ih _ l hl hsplit

theorem getProjectsLoopC_error :
    ∀ (lines : List String) (acc : List VariantC.Project) (l : String),
      l ∈ lines → 2 < (spaceRGXSplit (goTrimSpace l)).length →
      ∃ msg, VariantC.getProjectsLoop lines acc = .error msg := by
  intro lines
  induction lines with
  | nil =>
    intro acc l hl
    cases hl
  | cons l0 rest ih =>
    intro acc l hl hsplit
    rcases List.mem_cons.mp hl with rfl | hl
    · by_cases hb : goTrimSpace l = ""
      · rw [hb] at hsplit
        exact absurd hsplit (by decide)
      · rw [VariantC.getProjectsLoop, if_neg hb, if_pos (Or.inr hsplit)]
        exact ⟨_, rfl⟩
    · rw [VariantC.getProjectsLoop]
      by_cases hb : goTrimSpace l0 = ""
      · rw [if_pos hb]
        exact ih acc l hl hsplit
      · rw [if_neg hb]
        by_cases hn : (spaceRGXSplit (goTrimSpace l0)).length = 0 ∨
            2 < (spaceRGXSplit (goTrimSpace l0)).length
        · rw [if_pos hn]
          exact ⟨_, rfl⟩
        · rw [if_neg hn]
          exact ih _ l hl hsplit

theorem getImportsLoop_fields :
    ∀ (lines : List String) (acc res : List VariantA.Import),
      (∀ r ∈ acc, noEdgeSpace r.Name = true ∧ noEdgeSpace r.Import = true) →
      VariantA.getImportsLoop lines acc = .ok res →
      ∀ r ∈ res, noEdgeSpace r.Name = true ∧ noEdgeSpace r.Import = true := by
  intro lines
  induction lines with
  | nil =>
    intro acc res hacc h
    rw [VariantA.getImportsLoop] at h
    cases h
    exact hacc
  | cons line rest ih =>
    intro acc res hacc h
    rw [VariantA.getImportsLoop] at h
    by_cases hb : goTrimSpace line = ""
    · rw [if_pos hb] at h
      exact ih _ _ hacc h
    · rw [if_neg hb] at h
      by_cases hn : ((goSplitSemi (goTrimSpace line)).map goTrimSpace).length = 0 ∨
          2 < ((goSplitSemi (goTrimSpace line)).map goTrimSpace).length
      · rw [if_pos hn] at h
        cases h
      · rw [if_neg hn] at h
        refine ih _ _ ?_ h
        intro r hr
        rcases List.mem_append.mp hr with hr | hr
        · exact hacc r hr
        · simp at hr
          subst hr
          have hall : ∀ x ∈ (goSplitSemi (goTrimSpace line)).map goTrimSpace,
              noEdgeSpace x = true := by
            intro x hx
            rcases List.mem_map.mp hx with ⟨y, _, rfl⟩
            exact noEdgeSpace_goTrimSpace y
          exact ⟨strGet_prop (P := fun s => noEdgeSpace s = true) rfl hall 0,
            strGet_prop (P := fun s => noEdgeSpace s = true) rfl hall 1⟩

theorem getProjectsLoopC_fields :
    ∀ (lines : List String) (acc res : List VariantC.Project),
      (∀ r ∈ acc, noWSChar r.PackageName = true ∧ noWSChar r.RepoName = true) →
      VariantC.getProjectsLoop lines acc = .ok res →
      ∀ r ∈ res, noWSChar r.PackageName = true ∧ noWSChar r.RepoName = true := by
  intro lines
  induction lines with
  | nil =>
    intro acc res hacc h
    rw [VariantC.getProjectsLoop] at h
    cases h
    exact hacc
  | cons line rest ih =>
    intro acc res hacc h
    rw [VariantC.getProjectsLoop] at h
    by_cases hb : goTrimSpace line = ""
    · rw [if_pos hb] at h
      exact ih _ _ hacc h
    · rw [if_neg hb] at h
      by_cases hn : (spaceRGXSplit (goTrimSpace line)).length = 0 ∨
          2 < (spaceRGXSplit (goTrimSpace line)).length
      · rw [if_pos hn] at h
        cases h
      · rw [if_neg hn] at h
        refine ih _ _ ?_ h
        intro r hr
        rcases List.mem_append.mp hr with hr | hr
        · exact hacc r hr
        · simp at hr
          subst hr
          have hall : ∀ x ∈ spaceRGXSplit (goTrimSpace line), noWSChar x = true := by
            intro x hx
            rcases List.mem_map.mp hx with ⟨u, hu, rfl⟩
            rw [noWSChar]
            rw [List.all_eq_true]
            intro c hc
            simp only [Bool.not_eq_true']
            exact wsSplitAux_all (goTrimSpace line).data false [] (by simp) u hu c hc
          exact ⟨strGet_prop (P := fun s => noWSChar s = true) rfl hall 0,
            strGet_prop (P := fun s => noWSChar s = true) rfl hall 1⟩

theorem getProjectsLoopC_nonempty :
    ∀ (lines : List String) (acc res : List VariantC.Project),
      (∀ r ∈ acc, r.PackageName ≠ "") →
      VariantC.getProjectsLoop lines acc = .ok res →
      ∀ r ∈ res, r.PackageName ≠ "" := by
  intro lines
  induction lines with
  | nil =>
    intro acc res hacc h
    rw [VariantC.getProjectsLoop] at h
    cases h
    exact hacc
  | cons line rest ih =>
    intro acc res hacc h
    rw [VariantC.getProjectsLoop] at h
    by_cases hb : goTrimSpace line = ""
    · rw [if_pos hb] at h
      exact ih _ _ hacc h
    · rw [if_neg hb] at h
      by_cases hn : (spaceRGXSplit (goTrimSpace line)).length = 0 ∨
          2 < (spaceRGXSplit (goTrimSpace line)).length
      · rw [if_pos hn] at h
        cases h
      · rw [if_neg hn] at h
        refine ih _ _ ?_ h
        intro r hr
        rcases List.mem_append.mp hr with hr | hr
        · exact hacc r hr
        · simp at hr
          subst hr
          obtain ⟨c, t, ts, hsplit, _⟩ := spaceRGXSplit_first_ne hb
          simp only [hsplit]
          rw [show strGet ((⟨c :: t⟩ : String) :: ts) 0 = (⟨c :: t⟩ : String) from rfl]
          exact string_mk_ne_empty c t

theorem getProjectsLoopB_eq :
    ∀ (lines acc : List String), VariantB.getProjectsLoop lines acc = acc ++ lines := by
  intro lines
  induction lines with
  | nil =>
    intro acc
    rw [VariantB.getProjectsLoop]
    simp
  | cons line rest ih =>
    intro acc
    rw [VariantB.getProjectsLoop, ih]
    simp

/-! ## Sample values used by concrete witnesses and counterexamples -/

/-- A richer-variant DTO whose optional fields (vcs, homepage,
directory-pattern, file-pattern) are all unset, with one nested submodule. -/
def sampleDTO : VariantD.JSONDTO :=
  { VCS := ""
    ImportPrefix := "go.llib.dev/frameless"
    RootRepo := "https://github.com/adamluzsi/frameless"
    HomepageURL := ""
    DirectoryPattern := ""
    FilePattern := ""
    Submodules := ["sub"] }

/-- The parse of `sampleDTO.RootRepo`: a GitHub host. -/
def sampleURL : VariantD.GoURL :=
  { Host := "github.com", Str := "https://github.com/adamluzsi/frameless" }

/-- The Meta record the richer variant builds from `sampleDTO`. -/
def sampleMeta : VariantD.Meta := VariantD.buildMeta sampleDTO sampleURL

/-- A deterministic stand-in for the template execution. -/
def sampleRender : VariantD.Meta → Except String String := fun _ => .ok "PAGE"

/-- The filesystem events `processOne` performs for `sampleMeta`. -/
def sampleEvs : List FSEvent :=
  [.mkdirAll "out/frameless" 0o755,
   .writeFile "out/frameless/index.html" "PAGE" 0o644,
   .mkdirAll "out/frameless/sub" 0o755,
   .writeFile "out/frameless/sub/index.html" "PAGE" 0o644]

/-! ## The claims -/

/-- C1: in every variant that splits lines into fields (the semicolon
variant `VariantA.getImports` and the whitespace variant
`VariantC.getProjects`), an input line that splits into more than two fields
under the variant's delimiter makes the whole parse return an error, so no
record list is produced.  (The plain-line reader of `part_000` applies no
delimiter, so no line of it ever splits into more than two fields.) -/
theorem C1_extra_fields_error :
    (∀ (lines : List String) (l : String), l ∈ lines →
        2 < (goSplitSemi (goTrimSpace l)).length →
        ∃ msg, VariantA.getImports lines = .error msg) ∧
    (∀ (lines : List String) (l : String), l ∈ lines →
        2 < (spaceRGXSplit (goTrimSpace l)).length →
        ∃ msg, VariantC.getProjects lines = .error msg) :=
  ⟨fun lines l hl hs => getImportsLoop_error lines [] l hl hs,
   fun lines l hl hs => getProjectsLoopC_error lines [] l hl hs⟩

/-- C1 witness: the line `"a;b;c"` splits into three semicolon-separated
fields and makes the semicolon variant abort with an error. -/
theorem C1_extra_fields_error_witness :
    ("a;b;c" ∈ ["a;b;c"] ∧ 2 < (goSplitSemi (goTrimSpace "a;b;c")).length) ∧
    ∃ msg, VariantA.getImports ["a;b;c"] = .error msg :=
  ⟨⟨by simp, by decide⟩,
   C1_extra_fields_error.1 ["a;b;c"] "a;b;c" (by simp) (by decide)⟩

/-- C2 counterexample: a richer-variant record with unset `vcs` field yields
a Meta whose VCS name is `""`, not `"git"`. -/
theorem C2_vcs_default_cex :
    sampleDTO.VCS = "" ∧
    (VariantD.buildMeta sampleDTO sampleURL).Import.VCS.Name ≠ "git" :=
  ⟨rfl, by decide⟩

/-- C2 (amended): in the richer JSON variant, the constructed Meta record's
VCS name is the input's `vcs` field verbatim, so it is the empty string —
not `"git"` — when the field is unset; no default is applied while building
the Meta record. -/
theorem C2_vcs_name_verbatim (dto : VariantD.JSONDTO) (u : VariantD.GoURL)
    (h : dto.VCS = "") : (VariantD.buildMeta dto u).Import.VCS.Name = "" := by
  simp [VariantD.buildMeta, h]

/-- C2 witness: the amended statement at the sample record. -/
theorem C2_vcs_name_verbatim_witness :
    sampleDTO.VCS = "" ∧
    (VariantD.buildMeta sampleDTO sampleURL).Import.VCS.Name = "" :=
  ⟨rfl, C2_vcs_name_verbatim sampleDTO sampleURL rfl⟩

/-- C3: in the richer JSON variant, for a record whose repository-root host
contains "github.com", an unset directory pattern becomes
`<repoRoot>/tree/master{/dir}` and an unset file pattern becomes
`<directoryPattern>/{file}#L{line}`; and for every record, GitHub or not,
an unset homepage becomes the repository root URL string. -/
theorem C3_source_defaults (dto : VariantD.JSONDTO) (u : VariantD.GoURL) :
    (dto.HomepageURL = "" →
      (VariantD.buildMeta dto u).Source.HomepageURL = u.Str) ∧
    (goContains u.Host "github.com" = true → dto.DirectoryPattern = "" →
      (VariantD.buildMeta dto u).Source.DirectoryPattern =
        u.Str ++ "/tree/master\x7b/dir\x7d") ∧
    (goContains u.Host "github.com" = true → dto.FilePattern = "" →
      (VariantD.buildMeta dto u).Source.FilePattern =
        (VariantD.buildMeta dto u).Source.DirectoryPattern ++
          "/\x7bfile\x7d#L\x7bline\x7d") := by
  refine ⟨?_, ?_, ?_⟩
  · intro h
    simp only [VariantD.buildMeta, VariantD.zerokitIsZero, h]
    split_ifs <;> simp_all
  · intro hg h
    simp only [VariantD.buildMeta, VariantD.zerokitIsZero, hg, h]
    split_ifs <;> simp_all
  · intro hg h
    simp only [VariantD.buildMeta, VariantD.zerokitIsZero, hg, h]
    split_ifs <;> simp_all

/-- C3 witness: the defaults at the sample GitHub record with all optional
fields unset. -/
theorem C3_source_defaults_witness :
    (sampleDTO.HomepageURL = "" ∧ goContains sampleURL.Host "github.com" = true ∧
      sampleDTO.DirectoryPattern = "" ∧ sampleDTO.FilePattern = "") ∧
    ((VariantD.buildMeta sampleDTO sampleURL).Source.HomepageURL = sampleURL.Str ∧
      (VariantD.buildMeta sampleDTO sampleURL).Source.DirectoryPattern =
        sampleURL.Str ++ "/tree/master\x7b/dir\x7d" ∧
      (VariantD.buildMeta sampleDTO sampleURL).Source.FilePattern =
        (VariantD.buildMeta sampleDTO sampleURL).Source.DirectoryPattern ++
          "/\x7bfile\x7d#L\x7bline\x7d") := by
  have h := C3_source_defaults sampleDTO sampleURL
  exact ⟨⟨rfl, by decide, rfl, rfl⟩, h.1 rfl, h.2.1 (by decide) rfl, h.2.2 (by decide) rfl⟩

/-- C4: in the richer JSON variant, for every processed record, the content
written to each declared nested submodule's `index.html` is the very buffer
written to the parent's `index.html`. -/
theorem C4_nested_same_content (domain outDirPath : String)
    (render : VariantD.Meta → Except String String) (meta : VariantD.Meta)
    (evs : List FSEvent)
    (h : VariantD.processOne domain outDirPath render meta = .ok evs) :
    ∃ buf, render meta = .ok buf ∧
      FSEvent.writeFile (VariantD.outPathOf domain outDirPath meta) buf 0o644 ∈ evs ∧
      ∀ mod ∈ meta.Nested,
        FSEvent.writeFile (VariantD.modOutPathOf domain outDirPath meta mod) buf 0o644 ∈ evs := by
  rw [VariantD.processOne] at h
  rcases hr : render meta with e | buf
  · rw [hr] at h
    cases h
  · rw [hr] at h
    cases h
    refine ⟨buf, rfl, by simp, ?_⟩
    intro mod hm
    simp only [List.mem_append, List.mem_cons]
    right
    apply List.mem_flatten.mpr
    refine ⟨[FSEvent.mkdirAll (VariantD.modDirPathOf domain outDirPath meta mod) 0o755,
             FSEvent.writeFile (VariantD.modOutPathOf domain outDirPath meta mod) buf 0o644],
            List.mem_map.mpr ⟨mod, hm, rfl⟩, by simp⟩

/-- C4 witness: the sample record with one nested submodule `sub`. -/
theorem C4_nested_same_content_witness :
    VariantD.processOne "go.llib.dev" "out" sampleRender sampleMeta = .ok sampleEvs ∧
    ∃ buf, sampleRender sampleMeta = .ok buf ∧
      FSEvent.writeFile (VariantD.outPathOf "go.llib.dev" "out" sampleMeta) buf 0o644 ∈ sampleEvs ∧
      ∀ mod ∈ sampleMeta.Nested,
        FSEvent.writeFile (VariantD.modOutPathOf "go.llib.dev" "out" sampleMeta mod) buf 0o644 ∈ sampleEvs :=
  ⟨rfl, C4_nested_same_content "go.llib.dev" "out" sampleRender sampleMeta sampleEvs rfl⟩

/-- C5 counterexample: the plain-line reader of `part_000` is quoted by the
claim as one of the delimited-line readers, yet it appends every line
verbatim: the empty line yields a record, and a record field can keep its
surrounding whitespace. -/
theorem C5_trimming_cex :
    VariantB.getProjects ["", "  a  "] = ["", "  a  "] ∧
    goTrimSpace "  a  " ≠ "  a  " :=
  ⟨rfl, by decide⟩

/-- C5 (amended): in the semicolon and whitespace variants, a line that is
empty after trimming produces no record, and no produced field carries
leading or trailing whitespace (for the whitespace variant: no character of
the delimiter class `\s` at all); the plain-line reader of `part_000`
appends every scanned line verbatim, so blank lines yield records there and
fields keep their whitespace. -/
theorem C5_blank_and_trim_amended :
    (∀ (line : String) (rest : List String), goTrimSpace line = "" →
        VariantA.getImports (line :: rest) = VariantA.getImports rest) ∧
    (∀ (lines : List String) (res : List VariantA.Import),
        VariantA.getImports lines = .ok res →
        ∀ r ∈ res, noEdgeSpace r.Name = true ∧ noEdgeSpace r.Import = true) ∧
    (∀ (line : String) (rest : List String), goTrimSpace line = "" →
        VariantC.getProjects (line :: rest) = VariantC.getProjects rest) ∧
    (∀ (lines : List String) (res : List VariantC.Project),
        VariantC.getProjects lines = .ok res →
        ∀ r ∈ res, noWSChar r.PackageName = true ∧ noWSChar r.RepoName = true) ∧
    (∀ lines : List String, VariantB.getProjects lines = lines) := by
  refine ⟨?_, ?_, ?_, ?_, ?_⟩
  · intro line rest h
    rw [VariantA.getImports, VariantA.getImportsLoop, if_pos h]
    rfl
  · intro lines res h
    exact getImportsLoop_fields lines [] res (by simp) h
  · intro line rest h
    rw [VariantC.getProjects, VariantC.getProjectsLoop, if_pos h]
    rfl
  · intro lines res h
    exact getProjectsLoopC_fields lines [] res (by simp) h
  · intro lines
    rw [VariantB.getProjects, getProjectsLoopB_eq]
    rfl

/-- C5 witness: a whitespace-only line is skipped by the semicolon variant. -/
theorem C5_blank_and_trim_amended_witness :
    goTrimSpace "   " = "" ∧
    VariantA.getImports ["   ", "a;b"] = VariantA.getImports ["a;b"] :=
  ⟨by decide, C5_blank_and_trim_amended.1 "   " ["a;b"] (by decide)⟩

/-- C6: in the richer JSON variant, the redirect loop behaves exactly as if
the records whose import prefix does not contain the domain were absent:
they produce no filesystem event and no error, and the remaining records
are processed unchanged. -/
theorem C6_domain_filter (domain outDirPath : String)
    (render : VariantD.Meta → Except String String) (metas : List VariantD.Meta)
    (acc : List FSEvent) :
    VariantD.redirectsLoop domain outDirPath render metas acc =
      VariantD.redirectsLoop domain outDirPath render
        (metas.filter fun m => goContains m.Import.Prefix domain) acc := by
  induction metas generalizing acc with
  | nil => rfl
  | cons m rest ih =>
    by_cases hm : goContains m.Import.Prefix domain = true
    · rw [List.filter_cons_of_pos (by simpa using hm)]
      simp only [VariantD.redirectsLoop, if_pos hm]
      rcases hp : VariantD.processOne domain outDirPath render m with e | evs
      · simp only [hp]
      · simp only [hp]
        exact ih (acc ++ evs)
    · rw [List.filter_cons_of_neg (by simpa using hm)]
      simp only [VariantD.redirectsLoop, if_neg hm]
      exact ih acc

/-- C7 counterexample: the claim says a run with a required environment
variable unset aborts before performing any file I/O.  That is false when
the unset variable is `WEB_DIR_PATH` (resp. `DOMAIN`): both programs read
the imports file first, and the run's abort message is decided by the
outcome of that read — a failing open aborts with the file error, a
successful read aborts with the env-variable error — so the file I/O
happens before the missing variable stops the run. -/
theorem C7_env_abort_after_read_cex :
    (VariantA.mainRun (some "imports.txt") none
        (fun _ => .error "open imports.txt: no such file or directory") none).2 =
      some ("failed to open imports file: " ++
        "open imports.txt: no such file or directory") ∧
    (VariantA.mainRun (some "imports.txt") none
        (fun _ => .ok ["mylib"]) none).2 =
      some "WEB_DIR_PATH env variable not set" ∧
    (VariantD.mainRun (some "imports.json") none (some "out")
        (fun _ => .error "open imports.json: no such file or directory")
        (fun _ => .ok []) (fun _ => .ok { Host := "", Str := "" }) none).2 =
      some ("get import meta data failed: " ++
        ("failed to open imports file: " ++
          "open imports.json: no such file or directory")) :=
  ⟨rfl, rfl, rfl⟩

/-- C7 (amended): with a required environment variable unset the run aborts
with an error and performs no filesystem write at all, whatever the file
contents, parsers and template do; when the unset variable is the
input-file path, the abort happens before any file I/O — the result is the
env-variable error alone, untouched by the reader — while a missing
`WEB_DIR_PATH` or `DOMAIN` is only noticed after the input file was read. -/
theorem C7_missing_env_no_writes :
    (∀ (outDirEnv : Option String)
        (readLines : String → Except String (List String))
        (tmpl : Option (VariantA.RedirectTemplateData → Except String String)),
        VariantA.mainRun none outDirEnv readLines tmpl =
          ([], some "IMPORTS_FILE_PATH environment variable is not set")) ∧
    (∀ (importsEnv : Option String)
        (readLines : String → Except String (List String))
        (tmpl : Option (VariantA.RedirectTemplateData → Except String String)),
        (VariantA.mainRun importsEnv none readLines tmpl).1 = [] ∧
        (VariantA.mainRun importsEnv none readLines tmpl).2 ≠ none) ∧
    (∀ (domainEnv outDirEnv : Option String)
        (readAll : String → Except String String)
        (parseJSON : String → Except String (List VariantD.JSONDTO))
        (parseURL : String → Except String VariantD.GoURL)
        (tmpl : Option (VariantD.Meta → Except String String)),
        VariantD.mainRun none domainEnv outDirEnv readAll parseJSON parseURL tmpl =
          ([], some ("get import meta data failed: " ++
            "IMPORTS_FILE_PATH environment variable is not set"))) ∧
    (∀ (importsEnv outDirEnv : Option String)
        (readAll : String → Except String String)
        (parseJSON : String → Except String (List VariantD.JSONDTO))
        (parseURL : String → Except String VariantD.GoURL)
        (tmpl : Option (VariantD.Meta → Except String String)),
        (VariantD.mainRun importsEnv none outDirEnv readAll parseJSON parseURL tmpl).1 = [] ∧
        (VariantD.mainRun importsEnv none outDirEnv readAll parseJSON parseURL tmpl).2 ≠ none) ∧
    (∀ (importsEnv domainEnv : Option String)
        (readAll : String → Except String String)
        (parseJSON : String → Except String (List VariantD.JSONDTO))
        (parseURL : String → Except String VariantD.GoURL)
        (tmpl : Option (VariantD.Meta → Except String String)),
        (VariantD.mainRun importsEnv domainEnv none readAll parseJSON parseURL tmpl).1 = [] ∧
        (VariantD.mainRun importsEnv domainEnv none readAll parseJSON parseURL tmpl).2 ≠ none) := by
  refine ⟨?_, ?_, ?_, ?_, ?_⟩
  · intro outDirEnv readLines tmpl
    rfl
  · intro importsEnv readLines tmpl
    rcases h : VariantA.getImportsFull importsEnv readLines with e | projects <;>
      simp [VariantA.mainRun, h, VariantA.generateProjectRedirects]
  · intro domainEnv outDirEnv readAll parseJSON parseURL tmpl
    rfl
  · intro importsEnv outDirEnv readAll parseJSON parseURL tmpl
    rcases h : VariantD.getMetas importsEnv readAll parseJSON parseURL with e | metas <;>
      simp [VariantD.mainRun, h, VariantD.generateProjectRedirects]
  · intro importsEnv domainEnv readAll parseJSON parseURL tmpl
    rcases h : VariantD.getMetas importsEnv readAll parseJSON parseURL with e | metas <;>
      rcases domainEnv with _ | d <;>
      simp [VariantD.mainRun, h, VariantD.generateProjectRedirects]

/-- C8 counterexample: the semicolon variant accepts the line `";"` without
error and produces a record whose identifying name is empty. -/
theorem C8_nonempty_name_cex :
    VariantA.getImports [";"] = .ok [{ Name := "", Import := "" }] ∧
    ({ Name := "", Import := "" } : VariantA.Import).Name = "" :=
  ⟨rfl, rfl⟩

/-- C8 (amended): only the whitespace-delimited variant guarantees a
non-empty identifying name for every accepted record; the semicolon variant
(line `";"`) and the plain-line variant (empty line) can both accept records
whose name is empty. -/
theorem C8_nonempty_name_amended (lines : List String)
    (res : List VariantC.Project)
    (h : VariantC.getProjects lines = .ok res) :
    ∀ r ∈ res, r.PackageName ≠ "" :=
  getProjectsLoopC_nonempty lines [] res (by simp) h

/-- C8 witness: the amended statement at a one-line projects file. -/
theorem C8_nonempty_name_amended_witness :
    VariantC.getProjects ["mylib"] = .ok [{ PackageName := "mylib", RepoName := "" }] ∧
    ({ PackageName := "mylib", RepoName := "" } : VariantC.Project).PackageName ≠ "" :=
  ⟨rfl, C8_nonempty_name_amended ["mylib"] [{ PackageName := "mylib", RepoName := "" }]
    rfl { PackageName := "mylib", RepoName := "" } (by simp)⟩

/-- C9: a valid delimited line that yields exactly one field produces a
record whose name is that field and whose secondary value is empty; in the
whitespace variant, `getRepoName` then falls back to the package name. -/
theorem C9_single_field :
    (∀ (line : String) (rest : List String) (acc : List VariantA.Import) (f : String),
        goTrimSpace line ≠ "" →
        (goSplitSemi (goTrimSpace line)).map goTrimSpace = [f] →
        VariantA.getImportsLoop (line :: rest) acc =
          VariantA.getImportsLoop rest (acc ++ [{ Name := f, Import := "" }])) ∧
    (∀ (line : String) (rest : List String) (acc : List VariantC.Project) (f : String),
        goTrimSpace line ≠ "" →
        spaceRGXSplit (goTrimSpace line) = [f] →
        VariantC.getProjectsLoop (line :: rest) acc =
          VariantC.getProjectsLoop rest (acc ++ [{ PackageName := f, RepoName := "" }])) ∧
    (∀ f : String,
        ({ PackageName := f, RepoName := "" } : VariantC.Project).getRepoName = f) := by
  refine ⟨?_, ?_, ?_⟩
  · intro line rest acc f h1 h2
    rw [VariantA.getImportsLoop, if_neg h1, h2, if_neg (by simp)]
    rfl
  · intro line rest acc f h1 h2
    rw [VariantC.getProjectsLoop, if_neg h1, h2, if_neg (by simp)]
    rfl
  · intro f
    rw [VariantC.Project.getRepoName, if_pos rfl]

/-- C9 witness: the one-field line `"mylib"` in the semicolon variant. -/
theorem C9_single_field_witness :
    (goTrimSpace "mylib" ≠ "" ∧
      (goSplitSemi (goTrimSpace "mylib")).map goTrimSpace = ["mylib"]) ∧
    VariantA.getImportsLoop ["mylib"] [] =
      VariantA.getImportsLoop [] ([] ++ [{ Name := "mylib", Import := "" }]) :=
  ⟨⟨by decide, by decide⟩,
   C9_single_field.1 "mylib" [] [] "mylib" (by decide) (by decide)⟩

/-- C10: on every run of the richer JSON variant that reaches record
processing (all three environment variables present, template parsed), the
very first filesystem event is the write of the `CNAME` file holding
exactly the domain at the output root — before any record is examined, so
also for an empty or fully filtered record list and when a later per-record
step fails. -/
theorem C10_cname_first (domain outDirPath : String)
    (render : VariantD.Meta → Except String String) (metas : List VariantD.Meta) :
    (VariantD.generateProjectRedirects (some domain) (some outDirPath)
        (some render) metas).1.head? =
      some (FSEvent.writeFile (filepathJoin outDirPath "CNAME") domain 0o666) := rfl

end GoRedirect
